import Mathlib

/-!
Shallow embedding of `app/services/pdf_converter.py` (PDF → image pipeline):
`orient_image`, `convert_pdf_to_images`, `stitch_images_vertically` and
`convert_pdf_to_stitched_image`.

Modelling decisions, recorded once here:
* A raster image is modelled by its pixel dimensions together with its
  embedded EXIF orientation tag (`0` = no tag); pixel colour content is
  abstracted away.  The observable behaviour the claims talk about
  (canvas sizes, paste offsets, dimension swaps, which files exist)
  is a function of these fields.
* The filesystem is an association list from paths to images.  `pix.save`,
  `img.save` and `stitched_image.save` are modelled as atomic: they either
  install the value at the path or fail leaving the filesystem unchanged.
* External collaborators (PyMuPDF page rendering, the pytesseract
  orientation detector, disk-write success) are deterministic oracles
  collected in a `World`; Python exceptions are values of `PyErr`.
* `PIL.Image.rotate(a, expand=True)` is modelled at the right angles the
  Tesseract OSD detector reports (multiples of 90): the canvas is expanded
  exactly to the rotated content, so the dimensions swap iff `a % 180 = 90`.
  Pillow's `rotate`/`transpose` copy the `info` dictionary to the result,
  so the EXIF tag survives rotation; `ImageOps.exif_transpose` then applies
  the tag (tags 5–8 swap the dimensions) and removes it.
-/

deriving instance DecidableEq for Except

namespace PdfConverter

/-- A raster image: pixel dimensions plus the embedded EXIF orientation
tag (`0` when the file carries no orientation metadata). -/
structure Image where
  width : Nat
  height : Nat
  exif : Nat
  deriving DecidableEq, Repr

instance : Inhabited Image := ⟨⟨0, 0, 0⟩⟩

/-- Python exceptions that can cross the boundaries the claims mention. -/
inductive PyErr where
  | valueError (msg : String)
  | unboundLocalError (name : String)
  | fileNotFoundError (path : String)
  | renderError (page : Nat)
  | saveError (path : String)
  | osdError (msg : String)
  deriving DecidableEq, Repr

/-- The on-disk state: an association list from paths to image files. -/
abbrev Fs := List (String × Image)

/-- Reading the file at a path. -/
def Fs.lookup : Fs → String → Option Image
  | [], _ => none
  | (q, img) :: rest, p => if q = p then some img else Fs.lookup rest p

/-- Writing (creating or overwriting) the file at a path. -/
def Fs.set : Fs → String → Image → Fs
  | [], p, img => [(p, img)]
  | (q, i) :: rest, p, img =>
      if q = p then (p, img) :: rest else (q, i) :: Fs.set rest p img

/-- `os.remove`: deleting the file at a path. -/
def Fs.remove : Fs → String → Fs
  | [], _ => []
  | (q, i) :: rest, p =>
      if q = p then Fs.remove rest p else (q, i) :: Fs.remove rest p

/-- `os.path.exists`. -/
def Fs.existsb (fs : Fs) (p : String) : Bool := (fs.lookup p).isSome

/-- The characters after the last `'/'`: `os.path.basename`. -/
def afterLastSlash : List Char → List Char
  | [] => []
  | c :: rest => if '/' ∈ c :: rest then afterLastSlash rest else c :: rest

/-- Index of the last `'.'` in a character list, if any. -/
def lastDotIdx : List Char → Option Nat
  | [] => none
  | c :: rest =>
      match lastDotIdx rest with
      | some i => some (i + 1)
      | none => if c = '.' then some 0 else none

/-- `os.path.splitext(name)[0]` for a name containing no `'/'`: drop the part
from the last dot on, provided some non-dot character precedes that dot
(leading dots never start an extension). -/
def splitextRoot (cs : List Char) : List Char :=
  match lastDotIdx cs with
  | none => cs
  | some d => if (cs.takeWhile (fun c => c = '.')).length < d then cs.take d else cs

/-- `os.path.splitext(os.path.basename(p))[0]` as computed at lines 51 and 178
of `pdf_converter.py`. -/
def base_filename_of (p : String) : String := ⟨splitextRoot (afterLastSlash p.data)⟩

/-- `os.path.join` for POSIX paths: an absolute second component wins,
otherwise a separator is inserted unless one is already present. -/
def osPathJoin (dir name : String) : String :=
  if name.data.head? = some '/' then name
  else if dir = "" then name
  else if dir.data.getLast? = some '/' then dir ++ name
  else dir ++ "/" ++ name

/-- `PIL.Image.rotate(angle, expand=True)` at the right angles the OSD
detector reports: the expanded canvas swaps the dimensions exactly when the
(normalised) angle is 90 or 270; the `info` dictionary — and with it the
EXIF orientation tag — is copied to the result. -/
def pilRotateExpand (img : Image) (angle : Int) : Image :=
  if angle.emod 180 = 90 then { img with width := img.height, height := img.width }
  else img

/-- `PIL.ImageOps.exif_transpose`: apply the embedded EXIF orientation tag
(tags 5–8 transpose, hence swap the dimensions) and remove it. -/
def exifTranspose (img : Image) : Image :=
  if img.exif = 5 ∨ img.exif = 6 ∨ img.exif = 7 ∨ img.exif = 8 then
    { width := img.height, height := img.width, exif := 0 }
  else if img.exif = 0 then img
  else { img with exif := 0 }

/-- The orientation detector: `pytesseract.image_to_osd` followed by
`re.search('Rotate: (\d+)', osd)`.  `.error` models the OSD call raising,
`.ok none` models the regex not matching, `.ok (some a)` a reported angle. -/
abbrev Detector := Image → Except PyErr (Option Nat)

/-- `orient_image` (lines 12–38).  The whole body sits under a broad
`try/except` that logs and returns, so a missing file or a detector failure
leaves the filesystem untouched; a non-zero matched angle rotates by
`360 - angle`, applies the EXIF transpose, and overwrites the file in place. -/
def orient_image (detect : Detector) (fs : Fs) (path : String) : Fs :=
  match fs.lookup path with
  | none => fs
  | some img =>
      match detect img with
      | .error _ => fs
      | .ok none => fs
      | .ok (some angle) =>
          if angle ≠ 0 then
            fs.set path (exifTranspose (pilRotateExpand img ((360 : Int) - (angle : Int))))
          else fs

/-- The deterministic external world of one conversion: whether `fitz.open`
succeeds, the page count, the page renderer (`load_page` + `get_pixmap`),
the orientation detector, and which paths can be written. -/
structure World where
  openErr : Option PyErr
  numPages : Nat
  render : Nat → Nat → Except PyErr Image
  detect : Detector
  saveOk : String → Bool

/-- The path `os.path.join(output_folder, f"{base}_page_{pageIdx+1}.png")`
built at lines 59–60 (0-based `pageIdx`). -/
def pagePathFor (folder base : String) (pageIdx : Nat) : String :=
  osPathJoin folder (base ++ "_page_" ++ toString (pageIdx + 1) ++ ".png")

/-- Outcome of the per-page loop of `convert_pdf_to_images`: the filesystem
and the accumulated `image_paths`, tagged by whether an exception escaped. -/
inductive LoopRes where
  | ok (fs : Fs) (paths : List String)
  | err (fs : Fs) (paths : List String)
  deriving DecidableEq, Repr

def LoopRes.fsOf : LoopRes → Fs
  | .ok fs _ => fs
  | .err fs _ => fs

def LoopRes.pathsOf : LoopRes → List String
  | .ok _ ps => ps
  | .err _ ps => ps

def LoopRes.okb : LoopRes → Bool
  | .ok _ _ => true
  | .err _ _ => false

/-- The per-page loop (lines 53–69): render the page, save the PNG, run the
orientation corrector (which cannot raise), append the path.  A render or
save failure is the exception that aborts the loop. -/
def convertGo (w : World) (dpi : Nat) (folder base : String) :
    Nat → Nat → Fs → List String → LoopRes
  | 0, _, fs, acc => .ok fs acc
  | fuel + 1, page, fs, acc =>
      match w.render page dpi with
      | .error _ => .err fs acc
      | .ok pix =>
          if w.saveOk (pagePathFor folder base page) then
            convertGo w dpi folder base fuel (page + 1)
              (orient_image w.detect (Fs.set fs (pagePathFor folder base page) pix)
                (pagePathFor folder base page))
              (acc ++ [pagePathFor folder base page])
          else .err fs acc

/-- The rollback / success-path cleanup loop
`for path in ...: if os.path.exists(path): os.remove(path)`. -/
def cleanupFiles (fs : Fs) (paths : List String) : Fs :=
  paths.foldl (fun f p => if f.existsb p then f.remove p else f) fs

/-- `convert_pdf_to_images` (lines 41–82): open the document, run the
per-page loop; on any exception delete every accumulated image and return
the empty list. -/
def convert_pdf_to_images (w : World) (pdf_path : String) (dpi : Nat)
    (output_folder : String) (fs : Fs) : Fs × List String :=
  match w.openErr with
  | some _ => (fs, [])
  | none =>
      let base := base_filename_of pdf_path
      match convertGo w dpi output_folder base w.numPages 0 fs [] with
      | .ok fs1 paths => (fs1, paths)
      | .err fs1 paths => (cleanupFiles fs1 paths, [])

/-- Record of the canvas construction and the paste calls performed by the
stitch loop: the `Image.new` arguments and, for each input in order, the
pasted image and its `(x, y)` offset. -/
structure StitchTrace where
  mode : String
  background : String
  canvasWidth : Nat
  canvasHeight : Nat
  pastes : List (Image × Nat × Nat)
  deriving DecidableEq, Repr

/-- Outcome of `stitch_images_vertically`. -/
inductive StitchRes where
  | ok (fs : Fs) (outputPath : String) (trace : StitchTrace)
  | err (fs : Fs) (e : PyErr)
  deriving DecidableEq, Repr

/-- The image-opening half of the stitch loop (lines 108–116): `Image.open`
on each path in order, failing at the first unreadable one. -/
def openAll (fs : Fs) : List String → Except PyErr (List Image)
  | [] => .ok []
  | p :: rest =>
      match Fs.lookup fs p with
      | none => .error (.fileNotFoundError p)
      | some img =>
          match openAll fs rest with
          | .error e => .error e
          | .ok imgs => .ok (img :: imgs)

/-- The paste loop (lines 124–134): each image is pasted at
`x = (max_width - width) // 2` and the running `current_y`, which then
advances by the image's height. -/
def pasteGo (maxW : Nat) : List Image → Nat → List (Image × Nat × Nat)
  | [], _ => []
  | img :: rest, y =>
      (img, (maxW - img.width) / 2, y) :: pasteGo maxW rest (y + img.height)

/-- `stitch_images_vertically` (lines 85–155).  On empty input the
`raise ValueError("No images to stitch")` is caught by the broad `except`,
whose cleanup loop `for img in images` reads the local variable `images`
before its assignment at line 102 and so raises `UnboundLocalError`,
masking the `ValueError`.  Otherwise: open every image, compute the running
maximum width and total height, allocate a white RGB canvas, paste each
image in order, and save the canvas as `{base}_stitched.png`; every failure
is re-raised after closing the opened images (no filesystem effect). -/
def stitch_images_vertically (saveOk : String → Bool) (fs : Fs)
    (image_paths : List String) (output_folder base_filename : String) : StitchRes :=
  if image_paths = [] then
    .err fs (.unboundLocalError "images")
  else
    match openAll fs image_paths with
    | .error e => .err fs e
    | .ok images =>
        let max_width := images.foldl (fun m img => Nat.max m img.width) 0
        let total_height := images.foldl (fun s img => s + img.height) 0
        let pastes := pasteGo max_width images 0
        let output_path := osPathJoin output_folder (base_filename ++ "_stitched.png")
        if saveOk output_path then
          .ok (fs.set output_path { width := max_width, height := total_height, exif := 0 })
            output_path
            { mode := "RGB", background := "white", canvasWidth := max_width,
              canvasHeight := total_height, pastes := pastes }
        else .err fs (.saveError output_path)

/-- Outcome of the stitched-mode orchestrator. -/
inductive PipeRes where
  | ok (fs : Fs) (stitchedPath : String)
  | err (fs : Fs) (e : PyErr)
  deriving DecidableEq, Repr

/-- `convert_pdf_to_stitched_image` (lines 158–194): rasterize, fail with
`ValueError` when no pages were produced, stitch, then delete the individual
page images.  The outer `except` block only logs and re-raises, so a stage
failure surfaces unchanged and no cleanup happens on the failure path. -/
def convert_pdf_to_stitched_image (w : World) (pdf_path : String) (dpi : Nat)
    (output_folder : String) (fs : Fs) : PipeRes :=
  match convert_pdf_to_images w pdf_path dpi output_folder fs with
  | (fs1, image_paths) =>
      if image_paths = [] then .err fs1 (.valueError "Failed to convert PDF to images")
      else
        let base := base_filename_of pdf_path
        match stitch_images_vertically w.saveOk fs1 image_paths output_folder base with
        | .err fs2 e => .err fs2 e
        | .ok fs2 stitched_path _ => .ok (cleanupFiles fs2 image_paths) stitched_path

/-! ### Basic filesystem lemmas -/

theorem Fs.lookup_set (fs : Fs) (p : String) (img : Image) (q : String) :
    (fs.set p img).lookup q = if p = q then some img else fs.lookup q := by
  induction fs with
  | nil => by_cases h : p = q <;> simp [Fs.set, Fs.lookup, h]
  | cons hd tl ih =>
    obtain ⟨k, v⟩ := hd
    by_cases hkp : k = p
    · subst hkp
      by_cases hq : k = q <;> simp [Fs.set, Fs.lookup, hq]
    · by_cases hkq : k = q
      · subst hkq
        have : ¬ p = k := fun h => hkp h.symm
        simp [Fs.set, Fs.lookup, hkp, this]
      · simp [Fs.set, Fs.lookup, hkp, hkq, ih]

theorem Fs.lookup_remove (fs : Fs) (p q : String) :
    (fs.remove p).lookup q = if p = q then none else fs.lookup q := by
  induction fs with
  | nil => by_cases h : p = q <;> simp [Fs.remove, Fs.lookup, h]
  | cons hd tl ih =>
    obtain ⟨k, v⟩ := hd
    by_cases hkp : k = p
    · subst hkp
      by_cases hq : k = q
      · subst hq; simp [Fs.remove, Fs.lookup, ih]
      · simp [Fs.remove, Fs.lookup, hq, ih]
    · by_cases hkq : k = q
      · subst hkq
        have hpk : ¬ p = k := fun h => hkp h.symm
        simp [Fs.remove, Fs.lookup, hkp, hpk]
      · simp [Fs.remove, Fs.lookup, hkp, hkq, ih]

/-! ### Orientation corrector lemmas -/

/-- The value `orient_image` leaves at the processed path, as a pure function
of the previous value: unchanged unless the detector reports a matched
non-zero angle, in which case the rotation and the EXIF transpose apply. -/
def orientedValue (d : Detector) (img : Image) : Image :=
  match d img with
  | .error _ => img
  | .ok none => img
  | .ok (some angle) =>
      if angle ≠ 0 then exifTranspose (pilRotateExpand img ((360 : Int) - (angle : Int)))
      else img

theorem orient_image_lookup_self (d : Detector) (fs : Fs) (path : String) :
    (orient_image d fs path).lookup path = (fs.lookup path).map (orientedValue d) := by
  unfold orient_image
  cases h : fs.lookup path with
  | none => simp [h]
  | some img =>
    cases hd : d img with
    | error e => simp [h, orientedValue, hd]
    | ok o =>
      cases o with
      | none => simp [h, orientedValue, hd]
      | some angle =>
        by_cases ha : angle = 0
        · simp [h, orientedValue, hd, ha]
        · simp [h, orientedValue, hd, ha, Fs.lookup_set]

theorem orient_image_lookup_ne (d : Detector) (fs : Fs) (path q : String)
    (hq : q ≠ path) : (orient_image d fs path).lookup q = fs.lookup q := by
  unfold orient_image
  cases h : fs.lookup path with
  | none => rfl
  | some img =>
    cases hd : d img with
    | error e => simp [hd]
    | ok o =>
      cases o with
      | none => simp [hd]
      | some angle =>
        by_cases ha : angle = 0
        · simp [hd, ha]
        · have hpq : ¬ path = q := fun hh => hq hh.symm
          simp [hd, ha, Fs.lookup_set, hpq]

theorem orient_image_isSome (d : Detector) (fs : Fs) (path q : String)
    (h : (fs.lookup q).isSome) : ((orient_image d fs path).lookup q).isSome := by
  by_cases hq : q = path
  · subst hq
    rw [orient_image_lookup_self]
    cases hl : fs.lookup q
    · rw [hl] at h; simp at h
    · simp
  · rwa [orient_image_lookup_ne _ _ _ _ hq]

/-! ### Cleanup-loop lemmas -/

theorem cleanupFiles_cons (fs : Fs) (q : String) (rest : List String) :
    cleanupFiles fs (q :: rest) =
      cleanupFiles (if fs.existsb q then fs.remove q else fs) rest := rfl

theorem cleanupFiles_lookup_none (fs : Fs) (paths : List String) (p : String)
    (h : fs.lookup p = none) : (cleanupFiles fs paths).lookup p = none := by
  induction paths generalizing fs with
  | nil => exact h
  | cons q rest ih =>
    rw [cleanupFiles_cons]
    apply ih
    by_cases hq : fs.existsb q
    · rw [if_pos hq, Fs.lookup_remove]
      by_cases hqp : q = p <;> simp [hqp, h]
    · rw [if_neg hq]; exact h

theorem cleanupFiles_lookup_mem (fs : Fs) (paths : List String) (p : String)
    (h : p ∈ paths) : (cleanupFiles fs paths).lookup p = none := by
  induction paths generalizing fs with
  | nil => cases h
  | cons q rest ih =>
    rw [cleanupFiles_cons]
    by_cases hpq : p = q
    · subst hpq
      apply cleanupFiles_lookup_none
      by_cases hq : fs.existsb p
      · rw [if_pos hq, Fs.lookup_remove, if_pos rfl]
      · rw [if_neg hq]
        unfold Fs.existsb at hq
        cases hl : fs.lookup p with
        | none => rfl
        | some i => rw [hl] at hq; simp at hq
    · have hrest : p ∈ rest := by
        cases h with
        | head => exact absurd rfl hpq
        | tail _ hh => exact hh
      exact ih _ hrest

theorem cleanupFiles_lookup_not_mem (fs : Fs) (paths : List String) (p : String)
    (h : p ∉ paths) : (cleanupFiles fs paths).lookup p = fs.lookup p := by
  induction paths generalizing fs with
  | nil => rfl
  | cons q rest ih =>
    have hpq : p ≠ q := fun hh => h (hh ▸ List.mem_cons_self q rest)
    have hrest : p ∉ rest := fun hh => h (List.mem_cons_of_mem q hh)
    rw [cleanupFiles_cons, ih _ hrest]
    by_cases hq : fs.existsb q
    · rw [if_pos hq, Fs.lookup_remove, if_neg (fun hh => hpq hh.symm)]
    · rw [if_neg hq]

/-! ### Per-page-loop equations and structural lemmas -/

theorem convertGo_zero (w : World) (dpi : Nat) (folder base : String)
    (page : Nat) (fs : Fs) (acc : List String) :
    convertGo w dpi folder base 0 page fs acc = .ok fs acc := rfl

theorem convertGo_succ_render_err (w : World) (dpi : Nat) (folder base : String)
    (n page : Nat) (fs : Fs) (acc : List String) (e : PyErr)
    (hr : w.render page dpi = .error e) :
    convertGo w dpi folder base (n + 1) page fs acc = .err fs acc := by
  unfold convertGo; simp only [hr]

theorem convertGo_succ_save_err (w : World) (dpi : Nat) (folder base : String)
    (n page : Nat) (fs : Fs) (acc : List String) (pix : Image)
    (hr : w.render page dpi = .ok pix)
    (hs : ¬ w.saveOk (pagePathFor folder base page)) :
    convertGo w dpi folder base (n + 1) page fs acc = .err fs acc := by
  unfold convertGo; simp only [hr]; rw [if_neg hs]

theorem convertGo_succ_step (w : World) (dpi : Nat) (folder base : String)
    (n page : Nat) (fs : Fs) (acc : List String) (pix : Image)
    (hr : w.render page dpi = .ok pix)
    (hs : w.saveOk (pagePathFor folder base page)) :
    convertGo w dpi folder base (n + 1) page fs acc =
      convertGo w dpi folder base n (page + 1)
        (orient_image w.detect (Fs.set fs (pagePathFor folder base page) pix)
          (pagePathFor folder base page))
        (acc ++ [pagePathFor folder base page]) := by
  conv_lhs => unfold convertGo
  simp only [hr]
  rw [if_pos hs]

/-- The accumulated path list only ever grows: `acc` is a prefix of the
paths carried by the loop's outcome. -/
theorem convertGo_acc_extends (w : World) (dpi : Nat) (folder base : String) :
    ∀ fuel page fs acc, acc <+: (convertGo w dpi folder base fuel page fs acc).pathsOf := by
  intro fuel
  induction fuel with
  | zero => intro page fs acc; exact List.prefix_refl _
  | succ n ih =>
    intro page fs acc
    cases hr : w.render page dpi with
    | error e =>
      rw [convertGo_succ_render_err w dpi folder base n page fs acc e hr]
      exact List.prefix_refl _
    | ok pix =>
      by_cases hs : w.saveOk (pagePathFor folder base page)
      · rw [convertGo_succ_step w dpi folder base n page fs acc pix hr hs]
        exact List.IsPrefix.trans ⟨[pagePathFor folder base page], rfl⟩ (ih _ _ _)
      · rw [convertGo_succ_save_err w dpi folder base n page fs acc pix hr hs]
        exact List.prefix_refl _

/-- Frame property of the loop: a path that is not among the outcome's
accumulated paths is never written, so its file is untouched. -/
theorem convertGo_frame (w : World) (dpi : Nat) (folder base : String) :
    ∀ fuel page fs acc q, q ∉ (convertGo w dpi folder base fuel page fs acc).pathsOf →
      ((convertGo w dpi folder base fuel page fs acc).fsOf).lookup q = fs.lookup q := by
  intro fuel
  induction fuel with
  | zero => intro page fs acc q hq; rfl
  | succ n ih =>
    intro page fs acc q hq
    cases hr : w.render page dpi with
    | error e =>
      rw [convertGo_succ_render_err w dpi folder base n page fs acc e hr]
      rfl
    | ok pix =>
      by_cases hs : w.saveOk (pagePathFor folder base page)
      · rw [convertGo_succ_step w dpi folder base n page fs acc pix hr hs] at hq ⊢
        have hpath : pagePathFor folder base page ∈
            (convertGo w dpi folder base n (page + 1)
              (orient_image w.detect (Fs.set fs (pagePathFor folder base page) pix)
                (pagePathFor folder base page))
              (acc ++ [pagePathFor folder base page])).pathsOf :=
          (convertGo_acc_extends w dpi folder base n (page + 1) _ _).subset (by simp)
        have hqp : q ≠ pagePathFor folder base page := fun hh => hq (hh ▸ hpath)
        rw [ih _ _ _ _ hq, orient_image_lookup_ne _ _ _ _ hqp, Fs.lookup_set,
          if_neg (fun hh => hqp hh.symm)]
      · rw [convertGo_succ_save_err w dpi folder base n page fs acc pix hr hs]
        rfl

/-- On success the outcome's paths are exactly the accumulator followed by
the page paths for the remaining pages, in page order. -/
theorem convertGo_ok_paths (w : World) (dpi : Nat) (folder base : String) :
    ∀ fuel page fs acc fs1 ps,
      convertGo w dpi folder base fuel page fs acc = .ok fs1 ps →
      ps = acc ++ (List.range fuel).map (fun i => pagePathFor folder base (page + i)) := by
  intro fuel
  induction fuel with
  | zero =>
    intro page fs acc fs1 ps h
    rw [convertGo_zero] at h
    cases h
    simp
  | succ n ih =>
    intro page fs acc fs1 ps h
    cases hr : w.render page dpi with
    | error e => rw [convertGo_succ_render_err w dpi folder base n page fs acc e hr] at h; cases h
    | ok pix =>
      by_cases hs : w.saveOk (pagePathFor folder base page)
      · rw [convertGo_succ_step w dpi folder base n page fs acc pix hr hs] at h
        have := ih _ _ _ _ _ h
        rw [this, List.range_succ_eq_map]
        simp only [List.map_cons, List.map_map, List.append_assoc, List.cons_append,
          List.nil_append, Nat.add_zero]
        congr 1
        congr 1
        apply List.map_congr_left
        intro a _
        simp only [Function.comp_apply]
        congr 1
        omega
      · rw [convertGo_succ_save_err w dpi folder base n page fs acc pix hr hs] at h; cases h

/-- On success every accumulated path is present on disk afterwards
(provided the paths already accumulated are present, as they are when the
loop starts with an empty accumulator). -/
theorem convertGo_ok_present (w : World) (dpi : Nat) (folder base : String) :
    ∀ fuel page fs acc fs1 ps,
      (∀ p ∈ acc, (fs.lookup p).isSome) →
      convertGo w dpi folder base fuel page fs acc = .ok fs1 ps →
      ∀ p ∈ ps, (fs1.lookup p).isSome := by
  intro fuel
  induction fuel with
  | zero =>
    intro page fs acc fs1 ps hacc h
    rw [convertGo_zero] at h
    cases h
    exact hacc
  | succ n ih =>
    intro page fs acc fs1 ps hacc h
    cases hr : w.render page dpi with
    | error e => rw [convertGo_succ_render_err w dpi folder base n page fs acc e hr] at h; cases h
    | ok pix =>
      by_cases hs : w.saveOk (pagePathFor folder base page)
      · rw [convertGo_succ_step w dpi folder base n page fs acc pix hr hs] at h
        apply ih _ _ _ _ _ _ h
        intro p hp
        apply orient_image_isSome
        rw [Fs.lookup_set]
        by_cases hpp : pagePathFor folder base page = p
        · simp [hpp]
        · rw [if_neg hpp]
          rcases List.mem_append.mp hp with hin | hin
          · exact hacc p hin
          · simp at hin
            exact absurd hin.symm hpp
      · rw [convertGo_succ_save_err w dpi folder base n page fs acc pix hr hs] at h; cases h

/-! ### Determinism of the loop -/

/-- Which pages succeed — hence which paths are produced and whether the
loop aborts — depends only on the renderer, the save oracle and the page
count: never on the starting filesystem, and never on the orientation
detector (whose failures are absorbed inside `orient_image`). -/
theorem convertGo_paths_okb (w1 w2 : World) (dpi : Nat) (folder base : String)
    (hrender : w1.render = w2.render) (hsave : w1.saveOk = w2.saveOk) :
    ∀ fuel page fs1 fs2 acc,
      (convertGo w1 dpi folder base fuel page fs1 acc).pathsOf =
        (convertGo w2 dpi folder base fuel page fs2 acc).pathsOf ∧
      (convertGo w1 dpi folder base fuel page fs1 acc).okb =
        (convertGo w2 dpi folder base fuel page fs2 acc).okb := by
  intro fuel
  induction fuel with
  | zero => intro page fs1 fs2 acc; exact ⟨rfl, rfl⟩
  | succ n ih =>
    intro page fs1 fs2 acc
    cases hr : w1.render page dpi with
    | error e =>
      have hr2 : w2.render page dpi = .error e := by rw [← hrender]; exact hr
      rw [convertGo_succ_render_err w1 dpi folder base n page fs1 acc e hr,
        convertGo_succ_render_err w2 dpi folder base n page fs2 acc e hr2]
      exact ⟨rfl, rfl⟩
    | ok pix =>
      have hr2 : w2.render page dpi = .ok pix := by rw [← hrender]; exact hr
      by_cases hs : w1.saveOk (pagePathFor folder base page)
      · have hs2 : w2.saveOk (pagePathFor folder base page) := by rw [← hsave]; exact hs
        rw [convertGo_succ_step w1 dpi folder base n page fs1 acc pix hr hs,
          convertGo_succ_step w2 dpi folder base n page fs2 acc pix hr2 hs2]
        exact ih _ _ _ _
      · have hs2 : ¬ w2.saveOk (pagePathFor folder base page) := by rw [← hsave]; exact hs
        rw [convertGo_succ_save_err w1 dpi folder base n page fs1 acc pix hr hs,
          convertGo_succ_save_err w2 dpi folder base n page fs2 acc pix hr2 hs2]
        exact ⟨rfl, rfl⟩

/-- Two runs of the loop from filesystems that agree on the accumulated
paths end up agreeing on every produced path: what is stored at the page
paths is a function of the rendered pixmaps and the detector alone. -/
theorem convertGo_fs_agree (w : World) (dpi : Nat) (folder base : String) :
    ∀ fuel page fs1 fs2 acc,
      (∀ p ∈ acc, fs1.lookup p = fs2.lookup p) →
      ∀ p ∈ (convertGo w dpi folder base fuel page fs1 acc).pathsOf,
        ((convertGo w dpi folder base fuel page fs1 acc).fsOf).lookup p =
          ((convertGo w dpi folder base fuel page fs2 acc).fsOf).lookup p := by
  intro fuel
  induction fuel with
  | zero => intro page fs1 fs2 acc hacc p hp; exact hacc p hp
  | succ n ih =>
    intro page fs1 fs2 acc hacc p hp
    cases hr : w.render page dpi with
    | error e =>
      rw [convertGo_succ_render_err w dpi folder base n page fs1 acc e hr] at hp ⊢
      rw [convertGo_succ_render_err w dpi folder base n page fs2 acc e hr]
      exact hacc p hp
    | ok pix =>
      by_cases hs : w.saveOk (pagePathFor folder base page)
      · rw [convertGo_succ_step w dpi folder base n page fs1 acc pix hr hs] at hp ⊢
        rw [convertGo_succ_step w dpi folder base n page fs2 acc pix hr hs]
        apply ih _ _ _ _ _ _ hp
        intro q hq
        by_cases hqp : q = pagePathFor folder base page
        · subst hqp
          rw [orient_image_lookup_self, orient_image_lookup_self,
            Fs.lookup_set, Fs.lookup_set, if_pos rfl, if_pos rfl]
        · rw [orient_image_lookup_ne _ _ _ _ hqp, orient_image_lookup_ne _ _ _ _ hqp,
            Fs.lookup_set, Fs.lookup_set, if_neg (fun hh => hqp hh.symm),
            if_neg (fun hh => hqp hh.symm)]
          rcases List.mem_append.mp hq with hin | hin
          · exact hacc q hin
          · simp at hin
            exact absurd hin hqp
      · rw [convertGo_succ_save_err w dpi folder base n page fs1 acc pix hr hs] at hp ⊢
        rw [convertGo_succ_save_err w dpi folder base n page fs2 acc pix hr hs]
        exact hacc p hp

/-! ### Stitch-loop lemmas -/

theorem le_foldl_max (l : List Image) : ∀ a : Nat,
    a ≤ l.foldl (fun m i => Nat.max m i.width) a := by
  induction l with
  | nil => intro a; exact Nat.le_refl a
  | cons hd tl ih =>
    intro a
    exact Nat.le_trans (Nat.le_max_left a hd.width) (ih (Nat.max a hd.width))

theorem width_le_foldl_max (l : List Image) : ∀ a : Nat, ∀ img ∈ l,
    img.width ≤ l.foldl (fun m i => Nat.max m i.width) a := by
  induction l with
  | nil => intro a img h; cases h
  | cons hd tl ih =>
    intro a img h
    cases h with
    | head =>
      exact Nat.le_trans (Nat.le_max_right a hd.width) (le_foldl_max tl _)
    | tail _ hh => exact ih _ img hh

theorem foldl_max_attained (l : List Image) : ∀ a : Nat,
    l.foldl (fun m i => Nat.max m i.width) a = a ∨
      ∃ img ∈ l, img.width = l.foldl (fun m i => Nat.max m i.width) a := by
  induction l with
  | nil => intro a; exact Or.inl rfl
  | cons hd tl ih =>
    intro a
    rcases ih (Nat.max a hd.width) with h | ⟨img, hmem, himg⟩
    · simp only [List.foldl_cons]
      rcases Nat.le_total a hd.width with hle | hle
      · right
        refine ⟨hd, List.mem_cons_self _ _, ?_⟩
        rw [h]
        exact (Nat.max_eq_right hle).symm
      · left
        rw [h]
        exact Nat.max_eq_left hle
    · exact Or.inr ⟨img, List.mem_cons_of_mem _ hmem, himg⟩

theorem foldl_add_heights (l : List Image) : ∀ a : Nat,
    l.foldl (fun s i => s + i.height) a = a + (l.map Image.height).sum := by
  induction l with
  | nil => intro a; simp
  | cons hd tl ih =>
    intro a
    simp only [List.foldl_cons, List.map_cons, List.sum_cons, ih, Nat.add_assoc]

theorem pasteGo_length (maxW : Nat) (l : List Image) : ∀ y : Nat,
    (pasteGo maxW l y).length = l.length := by
  induction l with
  | nil => intro y; rfl
  | cons hd tl ih => intro y; simp [pasteGo, ih]

theorem pasteGo_getD (maxW : Nat) (l : List Image) : ∀ (y i : Nat), i < l.length →
    (pasteGo maxW l y).getD i default =
      (l.getD i default, (maxW - (l.getD i default).width) / 2,
        y + ((l.take i).map Image.height).sum) := by
  induction l with
  | nil => intro y i h; cases h
  | cons hd tl ih =>
    intro y i h
    cases i with
    | zero => simp [pasteGo]
    | succ i =>
      have hi : i < tl.length := Nat.lt_of_succ_lt_succ h
      simp only [pasteGo, List.getD_cons_succ, List.take_succ_cons, List.map_cons,
        List.sum_cons]
      rw [ih (y + hd.height) i hi, ← Nat.add_assoc]

/-! ### Stitch outcome characterisations -/

/-- Successful stitch, forward direction: under readable inputs and a
writable output path the function returns exactly the canvas, trace and
filesystem write the source performs. -/
theorem stitch_eq_ok (saveOk : String → Bool) (fs : Fs) (image_paths : List String)
    (folder base : String) (imgs : List Image)
    (hne : image_paths ≠ [])
    (hopen : openAll fs image_paths = .ok imgs)
    (hsave : saveOk (osPathJoin folder (base ++ "_stitched.png")) = true) :
    stitch_images_vertically saveOk fs image_paths folder base =
      .ok (fs.set (osPathJoin folder (base ++ "_stitched.png"))
            { width := imgs.foldl (fun m i => Nat.max m i.width) 0,
              height := imgs.foldl (fun s i => s + i.height) 0, exif := 0 })
        (osPathJoin folder (base ++ "_stitched.png"))
        { mode := "RGB", background := "white",
          canvasWidth := imgs.foldl (fun m i => Nat.max m i.width) 0,
          canvasHeight := imgs.foldl (fun s i => s + i.height) 0,
          pastes := pasteGo (imgs.foldl (fun m i => Nat.max m i.width) 0) imgs 0 } := by
  unfold stitch_images_vertically
  rw [if_neg hne]
  simp only [hopen]
  rw [if_pos hsave]

/-- A failed stitch never touches the filesystem: every `.err` outcome
carries the input filesystem unchanged. -/
theorem stitch_err_fs (saveOk : String → Bool) (fs : Fs) (image_paths : List String)
    (folder base : String) (fs2 : Fs) (e : PyErr)
    (h : stitch_images_vertically saveOk fs image_paths folder base = .err fs2 e) :
    fs2 = fs := by
  unfold stitch_images_vertically at h
  by_cases hne : image_paths = []
  · rw [if_pos hne] at h
    cases h; rfl
  · rw [if_neg hne] at h
    cases ho : openAll fs image_paths with
    | error e' =>
      simp only [ho] at h
      cases h; rfl
    | ok imgs =>
      simp only [ho] at h
      by_cases hsv : saveOk (osPathJoin folder (base ++ "_stitched.png"))
      · rw [if_pos hsv] at h; cases h
      · rw [if_neg hsv] at h; cases h; rfl

/-- Successful stitch, inverse direction: an `.ok` outcome determines the
output path, the trace and the filesystem write. -/
theorem stitch_ok_dest (saveOk : String → Bool) (fs : Fs) (image_paths : List String)
    (folder base : String) (fs' : Fs) (out : String) (tr : StitchTrace)
    (h : stitch_images_vertically saveOk fs image_paths folder base = .ok fs' out tr) :
    image_paths ≠ [] ∧ out = osPathJoin folder (base ++ "_stitched.png") ∧
      ∃ imgs, openAll fs image_paths = .ok imgs ∧
        tr.canvasWidth = imgs.foldl (fun m i => Nat.max m i.width) 0 ∧
        tr.canvasHeight = imgs.foldl (fun s i => s + i.height) 0 ∧
        tr.pastes = pasteGo tr.canvasWidth imgs 0 ∧
        fs' = fs.set out { width := tr.canvasWidth, height := tr.canvasHeight, exif := 0 } := by
  unfold stitch_images_vertically at h
  by_cases hne : image_paths = []
  · rw [if_pos hne] at h; cases h
  · rw [if_neg hne] at h
    cases ho : openAll fs image_paths with
    | error e' => simp only [ho] at h; cases h
    | ok imgs =>
      simp only [ho] at h
      by_cases hsv : saveOk (osPathJoin folder (base ++ "_stitched.png"))
      · rw [if_pos hsv] at h
        cases h
        exact ⟨hne, rfl, imgs, rfl, rfl, rfl, rfl, rfl⟩
      · rw [if_neg hsv] at h; cases h

/-! ### String and path lemmas -/

theorem str_data_append (s t : String) : (s ++ t).data = s.data ++ t.data := rfl

theorem str_eq_of_data (s t : String) (h : s.data = t.data) : s = t := by
  cases s; cases t; cases h; rfl

theorem str_append_assoc (a b c : String) : a ++ b ++ c = a ++ (b ++ c) := by
  apply str_eq_of_data
  rw [str_data_append, str_data_append, str_data_append, str_data_append, List.append_assoc]

theorem str_append_left_cancel (x a b : String) (h : x ++ a = x ++ b) : a = b := by
  apply str_eq_of_data
  have h2 := congrArg String.data h
  rw [str_data_append, str_data_append] at h2
  exact List.append_cancel_left h2

theorem data_head_append (s t : String) (c : Char) (hc : s.data.head? = some c) :
    (s ++ t).data.head? = some c := by
  rw [str_data_append]
  cases hs : s.data with
  | nil => rw [hs] at hc; cases hc
  | cons a l => rw [hs] at hc; simpa using hc

theorem name_head_ne_slash (base rest : String) (hb : '/' ∉ base.data)
    (hr : rest.data.head? ≠ some '/') :
    (base ++ rest).data.head? ≠ some '/' := by
  rw [str_data_append]
  cases hbd : base.data with
  | nil => simpa using hr
  | cons c cs =>
    simp only [List.cons_append, List.head?_cons]
    intro hc
    have hcc : c = '/' := by injection hc
    apply hb
    rw [hbd, hcc]
    exact List.mem_cons_self _ _

theorem no_slash_afterLastSlash (cs : List Char) : '/' ∉ afterLastSlash cs := by
  induction cs with
  | nil => simp [afterLastSlash]
  | cons c rest ih =>
    unfold afterLastSlash
    by_cases h : '/' ∈ c :: rest
    · rw [if_pos h]; exact ih
    · rw [if_neg h]; exact h

theorem splitextRoot_subset (cs : List Char) : ∀ x ∈ splitextRoot cs, x ∈ cs := by
  unfold splitextRoot
  split
  · intro x hx; exact hx
  · split
    · intro x hx; exact List.take_subset _ _ hx
    · intro x hx; exact hx

theorem no_slash_base (p : String) : '/' ∉ (base_filename_of p).data := by
  intro h
  exact no_slash_afterLastSlash p.data (splitextRoot_subset (afterLastSlash p.data) _ h)

theorem page_name_ne_stitched_name (base : String) (k : Nat) :
    base ++ "_page_" ++ toString (k + 1) ++ ".png" ≠ base ++ "_stitched.png" := by
  intro h
  have h1 : base ++ ("_page_" ++ (toString (k + 1) ++ ".png")) = base ++ "_stitched.png" := by
    rw [← str_append_assoc, ← str_append_assoc]
    exact h
  have h2 := congrArg String.data (str_append_left_cancel _ _ _ h1)
  rw [str_data_append] at h2
  have h3 : ("_page_".data ++ (toString (k + 1) ++ ".png").data)[1]? =
      "_stitched.png".data[1]? := by rw [h2]
  rw [List.getElem?_append_left (by decide)] at h3
  revert h3
  decide

theorem osPathJoin_ne (dir a b : String) (hab : a ≠ b)
    (ha : a.data.head? ≠ some '/') (hb2 : b.data.head? ≠ some '/') :
    osPathJoin dir a ≠ osPathJoin dir b := by
  unfold osPathJoin
  rw [if_neg ha, if_neg hb2]
  by_cases hd0 : dir = ""
  · rw [if_pos hd0, if_pos hd0]; exact hab
  · rw [if_neg hd0, if_neg hd0]
    by_cases hdl : dir.data.getLast? = some '/'
    · rw [if_pos hdl, if_pos hdl]
      intro h
      exact hab (str_append_left_cancel dir a b h)
    · rw [if_neg hdl, if_neg hdl]
      intro h
      exact hab (str_append_left_cancel (dir ++ "/") a b h)

/-- The page image paths and the stitched output path built from the same
folder and base name are always distinct. -/
theorem pagePathFor_ne_stitchedPath (folder base : String) (k : Nat)
    (hb : '/' ∉ base.data) :
    pagePathFor folder base k ≠ osPathJoin folder (base ++ "_stitched.png") := by
  unfold pagePathFor
  have hrw : base ++ "_page_" ++ toString (k + 1) ++ ".png" =
      base ++ ("_page_" ++ (toString (k + 1) ++ ".png")) := by
    rw [← str_append_assoc, ← str_append_assoc]
  rw [hrw]
  apply osPathJoin_ne
  · rw [← hrw]; exact page_name_ne_stitched_name base k
  · apply name_head_ne_slash _ _ hb
    rw [data_head_append "_page_" _ '_' (by decide)]
    decide
  · apply name_head_ne_slash _ _ hb
    decide

/-! ### `convert_pdf_to_images` destructors -/

/-- A non-empty result of `convert_pdf_to_images` can only come from the
success branch: the document opened and the per-page loop finished. -/
theorem convert_ok_dest (w : World) (pdf_path : String) (dpi : Nat)
    (output_folder : String) (fs fs1 : Fs) (paths : List String)
    (h : convert_pdf_to_images w pdf_path dpi output_folder fs = (fs1, paths))
    (hne : paths ≠ []) :
    w.openErr = none ∧
      convertGo w dpi output_folder (base_filename_of pdf_path) w.numPages 0 fs [] =
        .ok fs1 paths := by
  unfold convert_pdf_to_images at h
  cases ho : w.openErr with
  | some e =>
    simp only [ho] at h
    cases h
    exact absurd rfl hne
  | none =>
    simp only [ho] at h
    cases hg : convertGo w dpi output_folder (base_filename_of pdf_path) w.numPages 0 fs [] with
    | ok f p =>
      simp only [hg] at h
      cases h
      exact ⟨rfl, rfl⟩
    | err f p =>
      simp only [hg] at h
      cases h
      exact absurd rfl hne

theorem openAll_ok_length (fs : Fs) : ∀ (l : List String) (imgs : List Image),
    openAll fs l = .ok imgs → imgs.length = l.length := by
  intro l
  induction l with
  | nil =>
    intro imgs h
    unfold openAll at h
    cases h
    rfl
  | cons p rest ih =>
    intro imgs h
    unfold openAll at h
    cases hl : Fs.lookup fs p with
    | none => simp only [hl] at h; cases h
    | some img =>
      simp only [hl] at h
      cases ho : openAll fs rest with
      | error e => simp only [ho] at h; cases h
      | ok imgs2 =>
        simp only [ho] at h
        cases h
        simp [ih imgs2 ho]

/-! ### Claim theorems -/

/-- Claim C1: for every non-empty ordered list of input images with
dimensions `(w_i, h_i)`, `stitch_images_vertically` produces a composite of
width `max w_i` and height `sum h_i` on a white background, pasting each
image in input order at horizontal offset `(max w_i - w_i) / 2` (floor
division) and vertical offset equal to the sum of the heights of all prior
images, with no entry skipped or reordered. -/
theorem stitch_spec (saveOk : String → Bool) (fs : Fs) (image_paths : List String)
    (folder base : String) (imgs : List Image)
    (hne : image_paths ≠ [])
    (hopen : openAll fs image_paths = .ok imgs)
    (hsave : saveOk (osPathJoin folder (base ++ "_stitched.png")) = true) :
    ∃ fs' tr, stitch_images_vertically saveOk fs image_paths folder base =
        .ok fs' (osPathJoin folder (base ++ "_stitched.png")) tr ∧
      tr.mode = "RGB" ∧ tr.background = "white" ∧
      (∀ img ∈ imgs, img.width ≤ tr.canvasWidth) ∧
      (∃ img ∈ imgs, img.width = tr.canvasWidth) ∧
      tr.canvasHeight = (imgs.map Image.height).sum ∧
      tr.pastes.length = imgs.length ∧
      (∀ i, i < imgs.length →
        tr.pastes.getD i default =
          (imgs.getD i default,
            (tr.canvasWidth - (imgs.getD i default).width) / 2,
            ((imgs.take i).map Image.height).sum)) ∧
      fs'.lookup (osPathJoin folder (base ++ "_stitched.png")) =
        some { width := tr.canvasWidth, height := tr.canvasHeight, exif := 0 } := by
  have himgs_ne : imgs ≠ [] := by
    intro hnil
    have hlen := openAll_ok_length fs image_paths imgs hopen
    rw [hnil] at hlen
    cases hip : image_paths with
    | nil => exact hne hip
    | cons a l => rw [hip] at hlen; simp at hlen
  refine ⟨_, _, stitch_eq_ok saveOk fs image_paths folder base imgs hne hopen hsave,
    rfl, rfl, ?_, ?_, ?_, ?_, ?_, ?_⟩
  · exact width_le_foldl_max imgs 0
  · rcases foldl_max_attained imgs 0 with h0 | hmem
    · cases imgs with
      | nil => exact absurd rfl himgs_ne
      | cons i0 rest =>
        have hle := width_le_foldl_max (i0 :: rest) 0 i0 (List.mem_cons_self _ _)
        rw [h0] at hle
        refine ⟨i0, List.mem_cons_self _ _, ?_⟩
        rw [h0]
        exact Nat.le_zero.mp hle
    · exact hmem
  · rw [foldl_add_heights imgs 0, Nat.zero_add]
  · exact pasteGo_length _ imgs 0
  · intro i hi
    have := pasteGo_getD (imgs.foldl (fun m i => Nat.max m i.width) 0) imgs 0 i hi
    rw [this, Nat.zero_add]
  · rw [Fs.lookup_set, if_pos rfl]

/-- Witness for C1 at a concrete input: two readable images of sizes 2×3 and
4×5 stitched into `w1/d_stitched.png`. -/
theorem stitch_spec_witness :
    ∃ fs' tr, stitch_images_vertically (fun _ => true)
        [("w1/a.png", ⟨2, 3, 0⟩), ("w1/b.png", ⟨4, 5, 0⟩)]
        ["w1/a.png", "w1/b.png"] "w1" "d" =
      .ok fs' (osPathJoin "w1" ("d" ++ "_stitched.png")) tr ∧
      tr.canvasWidth = 4 ∧ tr.canvasHeight = 8 ∧
      tr.pastes = [(⟨2, 3, 0⟩, 1, 0), (⟨4, 5, 0⟩, 0, 3)] := by
  obtain ⟨fs', tr, h, -, -, -, -, -, -, -, -⟩ :=
    stitch_spec (fun _ => true)
      [("w1/a.png", ⟨2, 3, 0⟩), ("w1/b.png", ⟨4, 5, 0⟩)]
      ["w1/a.png", "w1/b.png"] "w1" "d" [⟨2, 3, 0⟩, ⟨4, 5, 0⟩]
      (by decide) (by decide) (by decide)
  refine ⟨fs', tr, h, ?_, ?_, ?_⟩ <;>
    · have hd := stitch_ok_dest _ _ _ _ _ _ _ _ h
      obtain ⟨-, -, imgs, hop, h1, h2, h3, -⟩ := hd
      have himgs : imgs = [⟨2, 3, 0⟩, ⟨4, 5, 0⟩] := by
        have : openAll [("w1/a.png", ⟨2, 3, 0⟩), ("w1/b.png", ⟨4, 5, 0⟩)]
            ["w1/a.png", "w1/b.png"] = .ok [⟨2, 3, 0⟩, ⟨4, 5, 0⟩] := by decide
        rw [this] at hop
        cases hop
        rfl
      subst himgs
      simp [h1, h2, h3, pasteGo]

/-- Claim C2: if any exception occurs during the per-page rasterization
loop, `convert_pdf_to_images` deletes all PageImages already produced in
that call and returns an empty result; afterwards every produced path is
gone from disk and every other path is untouched, so zero PageImages of
this call remain. -/
theorem convert_rollback (w : World) (pdf_path : String) (dpi : Nat)
    (output_folder : String) (fs fs1 : Fs) (paths : List String)
    (hopen : w.openErr = none)
    (hfail : convertGo w dpi output_folder (base_filename_of pdf_path) w.numPages 0 fs [] =
      .err fs1 paths) :
    (convert_pdf_to_images w pdf_path dpi output_folder fs).2 = [] ∧
    (∀ p ∈ paths,
      ((convert_pdf_to_images w pdf_path dpi output_folder fs).1).lookup p = none) ∧
    (∀ q, q ∉ paths →
      ((convert_pdf_to_images w pdf_path dpi output_folder fs).1).lookup q = fs.lookup q) := by
  have hconv : convert_pdf_to_images w pdf_path dpi output_folder fs =
      (cleanupFiles fs1 paths, []) := by
    unfold convert_pdf_to_images
    simp only [hopen, hfail]
  rw [hconv]
  refine ⟨rfl, ?_, ?_⟩
  · intro p hp
    exact cleanupFiles_lookup_mem fs1 paths p hp
  · intro q hq
    rw [cleanupFiles_lookup_not_mem fs1 paths q hq]
    have hfr := convertGo_frame w dpi output_folder (base_filename_of pdf_path)
      w.numPages 0 fs [] q
    rw [hfail] at hfr
    exact hfr hq

/-- World for the C2 witness: two pages, page 1 renders, page 2 raises. -/
def wRollback : World :=
  { openErr := none, numPages := 2,
    render := fun k _ => if k = 0 then .ok ⟨2, 3, 0⟩ else .error (.renderError k),
    detect := fun _ => .ok (some 0),
    saveOk := fun _ => true }

/-- Witness for C2: the failing 2-page conversion produces page 1, then
rolls it back; a pre-existing unrelated file survives. -/
theorem convert_rollback_witness :
    (convert_pdf_to_images wRollback "doc.pdf" 300 "out" [("keep.png", ⟨7, 7, 0⟩)]).2 = [] ∧
    (∀ p ∈ ["out/doc_page_1.png"],
      ((convert_pdf_to_images wRollback "doc.pdf" 300 "out"
        [("keep.png", ⟨7, 7, 0⟩)]).1).lookup p = none) ∧
    (∀ q, q ∉ ["out/doc_page_1.png"] →
      ((convert_pdf_to_images wRollback "doc.pdf" 300 "out"
        [("keep.png", ⟨7, 7, 0⟩)]).1).lookup q =
        Fs.lookup [("keep.png", ⟨7, 7, 0⟩)] q) :=
  convert_rollback wRollback "doc.pdf" 300 "out" [("keep.png", ⟨7, 7, 0⟩)]
    [("keep.png", ⟨7, 7, 0⟩), ("out/doc_page_1.png", ⟨2, 3, 0⟩)] ["out/doc_page_1.png"]
    rfl (by decide)

/-- World for C3: one page renders and saves, but the stitched output path
cannot be written, so the stitching stage raises. -/
def wStitchFail : World :=
  { openErr := none, numPages := 1,
    render := fun _ _ => .ok ⟨2, 3, 0⟩,
    detect := fun _ => .ok (some 0),
    saveOk := fun p => !(p == "out/doc_stitched.png") }

/-- Counterexample to claim C3: when the stitching stage fails, the
orchestrator re-raises without deleting anything — the produced PageImage
`out/doc_page_1.png` is still on disk in the error state. -/
theorem pipeline_no_cleanup_cex :
    convert_pdf_to_stitched_image wStitchFail "doc.pdf" 300 "out" [] =
      .err [("out/doc_page_1.png", ⟨2, 3, 0⟩)] (.saveError "out/doc_stitched.png") ∧
    Fs.lookup [("out/doc_page_1.png", ⟨2, 3, 0⟩)] "out/doc_page_1.png" =
      some ⟨2, 3, 0⟩ := by
  decide

/-- Claim C3 as amended: on a rasterization-stage failure the orchestrator
raises `ValueError` over the rasterizer's own (already rolled-back) state;
on a stitching-stage failure it re-raises the original stitch error
unchanged, but performs no cleanup — every produced PageImage remains on
disk in the surfaced error state. -/
theorem pipeline_failure_surfaces_original (w : World) (pdf_path : String) (dpi : Nat)
    (output_folder : String) (fs : Fs) :
    (∀ fs1, convert_pdf_to_images w pdf_path dpi output_folder fs = (fs1, []) →
      convert_pdf_to_stitched_image w pdf_path dpi output_folder fs =
        .err fs1 (.valueError "Failed to convert PDF to images")) ∧
    (∀ fs1 paths fs2 e,
      convert_pdf_to_images w pdf_path dpi output_folder fs = (fs1, paths) →
      paths ≠ [] →
      stitch_images_vertically w.saveOk fs1 paths output_folder
        (base_filename_of pdf_path) = .err fs2 e →
      convert_pdf_to_stitched_image w pdf_path dpi output_folder fs = .err fs2 e ∧
        ∀ p ∈ paths, (fs2.lookup p).isSome) := by
  constructor
  · intro fs1 hconv
    unfold convert_pdf_to_stitched_image
    simp only [hconv]
    rw [if_pos trivial]
  · intro fs1 paths fs2 e hconv hne hstitch
    constructor
    · unfold convert_pdf_to_stitched_image
      simp only [hconv]
      rw [if_neg hne]
      simp only [hstitch]
    · obtain ⟨hopen, hok⟩ :=
        convert_ok_dest w pdf_path dpi output_folder fs fs1 paths hconv hne
      have hfs2 : fs2 = fs1 :=
        stitch_err_fs w.saveOk fs1 paths output_folder (base_filename_of pdf_path) fs2 e hstitch
      subst hfs2
      intro p hp
      exact convertGo_ok_present w dpi output_folder (base_filename_of pdf_path)
        w.numPages 0 fs [] fs2 paths (by intro x hx; cases hx) hok p hp

/-- Witness for the amended C3 at the concrete stitch-save failure: the
original `saveError` is surfaced and the page image is still present. -/
theorem pipeline_failure_witness :
    convert_pdf_to_stitched_image wStitchFail "doc.pdf" 300 "out" [] =
      .err [("out/doc_page_1.png", ⟨2, 3, 0⟩)] (.saveError "out/doc_stitched.png") ∧
    ∀ p ∈ ["out/doc_page_1.png"],
      (Fs.lookup [("out/doc_page_1.png", ⟨2, 3, 0⟩)] p).isSome :=
  (pipeline_failure_surfaces_original wStitchFail "doc.pdf" 300 "out" []).2
    [("out/doc_page_1.png", ⟨2, 3, 0⟩)] ["out/doc_page_1.png"]
    [("out/doc_page_1.png", ⟨2, 3, 0⟩)] (.saveError "out/doc_stitched.png")
    (by decide) (by decide) (by decide)

/-- Claim C4 (against the code): stitching an empty list does fail and
performs no filesystem writes, but the surfaced exception is
`UnboundLocalError`, not the intended `ValueError` (the spec's
`EmptyInputError`): the broad `except` handler's cleanup loop reads the
local variable `images` before its assignment, masking the `ValueError`
raised at line 99. -/
theorem stitch_empty_raises (saveOk : String → Bool) (fs : Fs) (folder base : String) :
    stitch_images_vertically saveOk fs [] folder base =
      .err fs (.unboundLocalError "images") := by
  unfold stitch_images_vertically
  rw [if_pos rfl]

/-- Counterexample to claim C5: a non-square 2×3 image carrying EXIF
orientation tag 6.  The detector reports 90, the code rotates by 270
(dimensions become 3×2), but the follow-up `exif_transpose` applies tag 6
and swaps them back: the saved file is again 2×3, so a reported angle of 90
on a non-square image does not always swap width and height. -/
theorem orient_swap_cex :
    (Fs.lookup (orient_image (fun _ => .ok (some 90))
        [("p.png", ⟨2, 3, 6⟩)] "p.png") "p.png").map Image.width = some 2 ∧
    (Fs.lookup (orient_image (fun _ => .ok (some 90))
        [("p.png", ⟨2, 3, 6⟩)] "p.png") "p.png").map Image.width ≠ some 3 := by
  decide

/-- Claim C5 as amended: when the detector reports θ ∈ {90, 180, 270},
`orient_image` rotates by `360 − θ` with the canvas expanded (so the
dimensions swap exactly for θ = 90 or 270 and are kept for θ = 180),
applies the EXIF transpose, and overwrites the file in place, touching no
other path; the width/height swap for θ = 90 is guaranteed for images that
carry no dimension-swapping EXIF orientation tag (5–8); when the detected
angle is 0, no transform at all is applied. -/
theorem orient_image_spec (d : Detector) (fs : Fs) (path : String) (img : Image)
    (theta : Nat)
    (himg : fs.lookup path = some img)
    (hexif : img.exif ≠ 5 ∧ img.exif ≠ 6 ∧ img.exif ≠ 7 ∧ img.exif ≠ 8)
    (hdet : d img = .ok (some theta)) :
    (theta = 0 → orient_image d fs path = fs) ∧
    ((theta = 90 ∨ theta = 270) →
      ∃ img2, (orient_image d fs path).lookup path = some img2 ∧
        img2.width = img.height ∧ img2.height = img.width) ∧
    (theta = 180 →
      ∃ img2, (orient_image d fs path).lookup path = some img2 ∧
        img2.width = img.width ∧ img2.height = img.height) ∧
    (∀ q, q ≠ path → (orient_image d fs path).lookup q = fs.lookup q) := by
  obtain ⟨h5, h6, h7, h8⟩ := hexif
  have htrans : ∀ j : Image, j.exif = img.exif →
      (exifTranspose j).width = j.width ∧ (exifTranspose j).height = j.height := by
    intro j hj
    unfold exifTranspose
    rw [if_neg (by rw [hj]; simp [h5, h6, h7, h8])]
    by_cases he : j.exif = 0 <;> simp [he]
  refine ⟨?_, ?_, ?_, fun q hq => orient_image_lookup_ne d fs path q hq⟩
  · intro h0
    unfold orient_image
    simp [himg, hdet, h0]
  · intro h90
    have hne0 : theta ≠ 0 := by rcases h90 with h | h <;> subst h <;> decide
    have hrot : pilRotateExpand img ((360 : Int) - (theta : Int)) =
        { img with width := img.height, height := img.width } := by
      unfold pilRotateExpand
      rcases h90 with h | h <;> subst h <;> rw [if_pos (by decide)]
    rw [orient_image_lookup_self, himg]
    refine ⟨orientedValue d img, rfl, ?_, ?_⟩ <;>
      · unfold orientedValue
        simp only [hdet, hne0, ne_eq, not_false_eq_true, if_true, ite_true]
        rw [hrot]
        rcases htrans { img with width := img.height, height := img.width } rfl with ⟨hw, hh⟩
        simp [hw, hh]
  · intro h180
    subst h180
    have hrot : pilRotateExpand img ((360 : Int) - (180 : Nat)) = img := by
      unfold pilRotateExpand
      rw [if_neg (by decide)]
    rw [orient_image_lookup_self, himg]
    refine ⟨orientedValue d img, rfl, ?_, ?_⟩ <;>
      · unfold orientedValue
        simp only [hdet, ne_eq, not_false_eq_true, if_true, ite_true]
        rw [hrot]
        rcases htrans img rfl with ⟨hw, hh⟩
        simp [hw, hh]

/-- Witness for the amended C5: reported angle 90 on a 2×3 image without an
EXIF tag ends as 3×2, overwritten in place. -/
theorem orient_image_spec_witness :
    ∃ img2, (orient_image (fun _ => .ok (some 90))
        [("p.png", ⟨2, 3, 0⟩)] "p.png").lookup "p.png" = some img2 ∧
      img2.width = 3 ∧ img2.height = 2 := by
  obtain ⟨-, hswap, -, -⟩ :=
    orient_image_spec (fun _ => .ok (some 90)) [("p.png", ⟨2, 3, 0⟩)] "p.png"
      ⟨2, 3, 0⟩ 90 (by decide) (by decide) rfl
  exact hswap (Or.inl rfl)

/-- Claim C6: a detector failure leaves the image unmodified and is
absorbed (`orient_image` returns normally), and the set of produced page
paths of a conversion is completely independent of the orientation detector
(and of the pre-existing disk state), so an orientation failure on one page
never aborts rasterization of the remaining pages. -/
theorem orient_failure_nonfatal :
    (∀ (d : Detector) (fs : Fs) (path : String) (img : Image) (e : PyErr),
      fs.lookup path = some img → d img = .error e → orient_image d fs path = fs) ∧
    (∀ (w1 w2 : World) (pdf_path : String) (dpi : Nat) (folder : String) (fs1 fs2 : Fs),
      w1.openErr = w2.openErr → w1.numPages = w2.numPages →
      w1.render = w2.render → w1.saveOk = w2.saveOk →
      (convert_pdf_to_images w1 pdf_path dpi folder fs1).2 =
        (convert_pdf_to_images w2 pdf_path dpi folder fs2).2) := by
  constructor
  · intro d fs path img e himg hdet
    unfold orient_image
    simp [himg, hdet]
  · intro w1 w2 pdf_path dpi folder fs1 fs2 hoe hnp hr hs
    unfold convert_pdf_to_images
    cases ho : w1.openErr with
    | some e =>
      have ho2 : w2.openErr = some e := by rw [← hoe]; exact ho
      simp only [ho, ho2]
    | none =>
      have ho2 : w2.openErr = none := by rw [← hoe]; exact ho
      simp only [ho, ho2]
      rw [hnp]
      have hpo := convertGo_paths_okb w1 w2 dpi folder (base_filename_of pdf_path) hr hs
        w1.numPages 0 fs1 fs2 []
      rw [hnp] at hpo
      cases hg1 : convertGo w1 dpi folder (base_filename_of pdf_path) w2.numPages 0 fs1 [] with
      | ok f1 p1 =>
        cases hg2 : convertGo w2 dpi folder (base_filename_of pdf_path) w2.numPages 0 fs2 [] with
        | ok f2 p2 =>
          rw [hg1, hg2] at hpo
          exact hpo.1
        | err f2 p2 =>
          rw [hg1, hg2] at hpo
          cases hpo.2
      | err f1 p1 =>
        cases hg2 : convertGo w2 dpi folder (base_filename_of pdf_path) w2.numPages 0 fs2 [] with
        | ok f2 p2 =>
          rw [hg1, hg2] at hpo
          cases hpo.2
        | err f2 p2 => rfl

/-- 3-page world whose detector raises exactly on the page-2 image
(height 4); the other pages detect angle 0. -/
def wDetectBoom : World :=
  { openErr := none, numPages := 3,
    render := fun k _ => .ok ⟨2, 3 + k, 0⟩,
    detect := fun img => if img.height = 4 then .error (.osdError "boom") else .ok (some 0),
    saveOk := fun _ => true }

/-- The same world with a detector that never raises. -/
def wDetectCalm : World :=
  { openErr := none, numPages := 3,
    render := fun k _ => .ok ⟨2, 3 + k, 0⟩,
    detect := fun _ => .ok (some 0),
    saveOk := fun _ => true }

/-- Witness for C6: the detector failure on page 2 of 3 leaves that page's
file untouched and the conversion still produces all three pages, exactly
as with a never-failing detector. -/
theorem orient_failure_nonfatal_witness :
    orient_image (fun _ => .error (.osdError "boom")) [("x.png", ⟨2, 4, 0⟩)] "x.png" =
      [("x.png", ⟨2, 4, 0⟩)] ∧
    (convert_pdf_to_images wDetectBoom "doc.pdf" 300 "out" []).2 =
      (convert_pdf_to_images wDetectCalm "doc.pdf" 300 "out" []).2 ∧
    (convert_pdf_to_images wDetectBoom "doc.pdf" 300 "out" []).2 =
      ["out/doc_page_1.png", "out/doc_page_2.png", "out/doc_page_3.png"] ∧
    ((convert_pdf_to_images wDetectBoom "doc.pdf" 300 "out" []).1).lookup
      "out/doc_page_2.png" = some ⟨2, 4, 0⟩ :=
  ⟨orient_failure_nonfatal.1 (fun _ => .error (.osdError "boom")) [("x.png", ⟨2, 4, 0⟩)]
      "x.png" ⟨2, 4, 0⟩ (.osdError "boom") (by decide) rfl,
    orient_failure_nonfatal.2 wDetectBoom wDetectCalm "doc.pdf" 300 "out" [] []
      rfl rfl rfl rfl,
    by decide, by decide⟩

/-- Claim C7: after the stitcher succeeds inside
`convert_pdf_to_stitched_image`, every individual PageImage file is
deleted and the stitched image is present — the sole surviving artifact of
the conversion. -/
theorem stitched_sole_artifact (w : World) (pdf_path : String) (dpi : Nat)
    (output_folder : String) (fs fs3 : Fs) (out : String)
    (h : convert_pdf_to_stitched_image w pdf_path dpi output_folder fs = .ok fs3 out) :
    (fs3.lookup out).isSome ∧
    (∀ p ∈ (convert_pdf_to_images w pdf_path dpi output_folder fs).2,
      fs3.lookup p = none) := by
  unfold convert_pdf_to_stitched_image at h
  cases hconv : convert_pdf_to_images w pdf_path dpi output_folder fs with
  | mk fs1 paths =>
    simp only [hconv] at h
    by_cases hne : paths = []
    · rw [if_pos hne] at h
      cases h
    · rw [if_neg hne] at h
      cases hst : stitch_images_vertically w.saveOk fs1 paths output_folder
          (base_filename_of pdf_path) with
      | err f2 e => simp only [hst] at h; cases h
      | ok f2 sp tr =>
        simp only [hst] at h
        cases h
        obtain ⟨hopen, hok⟩ :=
          convert_ok_dest w pdf_path dpi output_folder fs fs1 paths hconv hne
        have hpaths := convertGo_ok_paths w dpi output_folder (base_filename_of pdf_path)
          w.numPages 0 fs [] fs1 paths hok
        obtain ⟨-, hout, imgs, -, -, -, -, hf2⟩ :=
          stitch_ok_dest w.saveOk fs1 paths output_folder (base_filename_of pdf_path)
            f2 out tr hst
        have hsp_not : out ∉ paths := by
          intro hmem
          rw [hpaths] at hmem
          simp only [List.nil_append, List.mem_map, List.mem_range] at hmem
          obtain ⟨k, -, hk⟩ := hmem
          exact pagePathFor_ne_stitchedPath output_folder (base_filename_of pdf_path)
            (0 + k) (no_slash_base pdf_path) (hk.trans hout)
        constructor
        · rw [cleanupFiles_lookup_not_mem f2 paths out hsp_not, hf2, Fs.lookup_set,
            if_pos rfl]
          rfl
        · intro p hp
          exact cleanupFiles_lookup_mem f2 paths p hp

/-- World for the C7 witness: two pages, everything succeeds. -/
def wPipeOk : World :=
  { openErr := none, numPages := 2,
    render := fun k _ => .ok ⟨2, 3 + k, 0⟩,
    detect := fun _ => .ok (some 0),
    saveOk := fun _ => true }

/-- Witness for C7: after the successful stitched conversion only
`out/doc_stitched.png` survives; both page files are gone. -/
theorem stitched_sole_artifact_witness :
    (Fs.lookup [("out/doc_stitched.png", ⟨2, 7, 0⟩)] "out/doc_stitched.png").isSome ∧
    (∀ p ∈ (convert_pdf_to_images wPipeOk "doc.pdf" 300 "out" []).2,
      Fs.lookup [("out/doc_stitched.png", ⟨2, 7, 0⟩)] p = none) :=
  stitched_sole_artifact wPipeOk "doc.pdf" 300 "out" []
    [("out/doc_stitched.png", ⟨2, 7, 0⟩)] "out/doc_stitched.png" (by decide)

/-- Claim C8: a successful rasterization of an N-page document produces
exactly N PageImages, in page order, with deterministic filenames
`{baseName}_page_{N}.png` (1-based page numbers), all present on disk; and
any successful stitch names its composite `{baseName}_stitched.png`. -/
theorem convert_success_names (w : World) (pdf_path : String) (dpi : Nat)
    (output_folder : String) (fs fs1 : Fs) (paths : List String)
    (hopen : w.openErr = none)
    (hok : convertGo w dpi output_folder (base_filename_of pdf_path) w.numPages 0 fs [] =
      .ok fs1 paths) :
    convert_pdf_to_images w pdf_path dpi output_folder fs = (fs1, paths) ∧
    paths = (List.range w.numPages).map (fun k =>
      osPathJoin output_folder
        (base_filename_of pdf_path ++ "_page_" ++ toString (k + 1) ++ ".png")) ∧
    paths.length = w.numPages ∧
    (∀ p ∈ paths, (fs1.lookup p).isSome) ∧
    (∀ (saveOk : String → Bool) (fsa fsb : Fs) (ips : List String)
        (folder2 base2 out : String) (tr : StitchTrace),
      stitch_images_vertically saveOk fsa ips folder2 base2 = .ok fsb out tr →
      out = osPathJoin folder2 (base2 ++ "_stitched.png")) := by
  have hpaths := convertGo_ok_paths w dpi output_folder (base_filename_of pdf_path)
    w.numPages 0 fs [] fs1 paths hok
  have hpaths2 : paths = (List.range w.numPages).map (fun k =>
      osPathJoin output_folder
        (base_filename_of pdf_path ++ "_page_" ++ toString (k + 1) ++ ".png")) := by
    rw [hpaths, List.nil_append]
    apply List.map_congr_left
    intro a _
    rw [Nat.zero_add]
    rfl
  refine ⟨?_, hpaths2, ?_, ?_, ?_⟩
  · unfold convert_pdf_to_images
    simp only [hopen, hok]
  · rw [hpaths2]; simp
  · exact convertGo_ok_present w dpi output_folder (base_filename_of pdf_path)
      w.numPages 0 fs [] fs1 paths (by intro x hx; cases hx) hok
  · intro saveOk fsa fsb ips folder2 base2 out tr hst
    exact (stitch_ok_dest saveOk fsa ips folder2 base2 fsb out tr hst).2.1

/-- World for the C8 witness: two pages, everything succeeds. -/
def wNames : World :=
  { openErr := none, numPages := 2,
    render := fun k _ => .ok ⟨2, 3 + k, 0⟩,
    detect := fun _ => .ok (some 0),
    saveOk := fun _ => true }

/-- Witness for C8: a 2-page document `dir/report.pdf` yields
`out/report_page_1.png`, `out/report_page_2.png`, in order. -/
theorem convert_success_names_witness :
    convert_pdf_to_images wNames "dir/report.pdf" 300 "out" [] =
      ([("out/report_page_1.png", ⟨2, 3, 0⟩), ("out/report_page_2.png", ⟨2, 4, 0⟩)],
        ["out/report_page_1.png", "out/report_page_2.png"]) ∧
    ["out/report_page_1.png", "out/report_page_2.png"] =
      (List.range wNames.numPages).map (fun k =>
        osPathJoin "out"
          (base_filename_of "dir/report.pdf" ++ "_page_" ++ toString (k + 1) ++ ".png")) := by
  obtain ⟨h1, h2, -, -, -⟩ := convert_success_names wNames "dir/report.pdf" 300 "out" []
    [("out/report_page_1.png", ⟨2, 3, 0⟩), ("out/report_page_2.png", ⟨2, 4, 0⟩)]
    ["out/report_page_1.png", "out/report_page_2.png"] rfl (by decide)
  exact ⟨h1, h2⟩

/-- Claim C9: rasterization is deterministic — two runs of
`convert_pdf_to_images` over the same document, resolution and output
folder (the external world being the same deterministic oracles) produce
the same list of images and the same pixel dimensions for each page,
whatever the pre-existing disk states were. -/
theorem convert_deterministic (w : World) (pdf_path : String) (dpi : Nat)
    (folder : String) (fsA fsB : Fs) :
    (convert_pdf_to_images w pdf_path dpi folder fsA).2 =
      (convert_pdf_to_images w pdf_path dpi folder fsB).2 ∧
    (∀ p ∈ (convert_pdf_to_images w pdf_path dpi folder fsA).2,
      ((convert_pdf_to_images w pdf_path dpi folder fsA).1.lookup p).map
          (fun i => (i.width, i.height)) =
        ((convert_pdf_to_images w pdf_path dpi folder fsB).1.lookup p).map
          (fun i => (i.width, i.height))) := by
  cases ho : w.openErr with
  | some e =>
    have hA : convert_pdf_to_images w pdf_path dpi folder fsA = (fsA, []) := by
      unfold convert_pdf_to_images; simp only [ho]
    have hB : convert_pdf_to_images w pdf_path dpi folder fsB = (fsB, []) := by
      unfold convert_pdf_to_images; simp only [ho]
    rw [hA, hB]
    exact ⟨rfl, fun p hp => absurd hp (List.not_mem_nil p)⟩
  | none =>
    have hpo := convertGo_paths_okb w w dpi folder (base_filename_of pdf_path) rfl rfl
      w.numPages 0 fsA fsB []
    have hag := convertGo_fs_agree w dpi folder (base_filename_of pdf_path)
      w.numPages 0 fsA fsB [] (by intro x hx; cases hx)
    cases hg1 : convertGo w dpi folder (base_filename_of pdf_path) w.numPages 0 fsA [] with
    | ok f1 p1 =>
      cases hg2 : convertGo w dpi folder (base_filename_of pdf_path) w.numPages 0 fsB [] with
      | ok f2 p2 =>
        have hA : convert_pdf_to_images w pdf_path dpi folder fsA = (f1, p1) := by
          unfold convert_pdf_to_images; simp only [ho, hg1]
        have hB : convert_pdf_to_images w pdf_path dpi folder fsB = (f2, p2) := by
          unfold convert_pdf_to_images; simp only [ho, hg2]
        rw [hA, hB]
        rw [hg1, hg2] at hpo hag
        refine ⟨hpo.1, ?_⟩
        intro p hp
        have hp1 : p ∈ p1 := hp
        have hlp2 : f1.lookup p = f2.lookup p := hag p hp1
        show (f1.lookup p).map (fun i => (i.width, i.height)) =
          (f2.lookup p).map (fun i => (i.width, i.height))
        rw [hlp2]
      | err f2 p2 =>
        rw [hg1, hg2] at hpo
        cases hpo.2
    | err f1 p1 =>
      cases hg2 : convertGo w dpi folder (base_filename_of pdf_path) w.numPages 0 fsB [] with
      | ok f2 p2 =>
        rw [hg1, hg2] at hpo
        cases hpo.2
      | err f2 p2 =>
        have hA : convert_pdf_to_images w pdf_path dpi folder fsA =
            (cleanupFiles f1 p1, []) := by
          unfold convert_pdf_to_images; simp only [ho, hg1]
        have hB : convert_pdf_to_images w pdf_path dpi folder fsB =
            (cleanupFiles f2 p2, []) := by
          unfold convert_pdf_to_images; simp only [ho, hg2]
        rw [hA, hB]
        exact ⟨rfl, fun p hp => absurd hp (List.not_mem_nil p)⟩

/-- World for the C9 witness: two pages, everything succeeds. -/
def wDet : World :=
  { openErr := none, numPages := 2,
    render := fun k _ => .ok ⟨2, 3 + k, 0⟩,
    detect := fun _ => .ok (some 0),
    saveOk := fun _ => true }

/-- Witness for C9: the same conversion run over two different pre-existing
disk states produces the same paths and the same per-page dimensions. -/
theorem convert_deterministic_witness :
    (convert_pdf_to_images wDet "doc.pdf" 300 "out" [("junk.png", ⟨9, 9, 0⟩)]).2 =
      (convert_pdf_to_images wDet "doc.pdf" 300 "out" []).2 ∧
    (∀ p ∈ (convert_pdf_to_images wDet "doc.pdf" 300 "out" [("junk.png", ⟨9, 9, 0⟩)]).2,
      ((convert_pdf_to_images wDet "doc.pdf" 300 "out" [("junk.png", ⟨9, 9, 0⟩)]).1.lookup p).map
          (fun i => (i.width, i.height)) =
        ((convert_pdf_to_images wDet "doc.pdf" 300 "out" []).1.lookup p).map
          (fun i => (i.width, i.height))) :=
  convert_deterministic wDet "doc.pdf" 300 "out" [("junk.png", ⟨9, 9, 0⟩)] []

/-- Counterexample to claim C10: when an input path is itself
`{base}_stitched.png`, a successful stitch overwrites that input file
(2×3 before, 2×8 after), so not every input is left unchanged. -/
theorem stitch_overwrites_input_cex :
    stitch_images_vertically (fun _ => true)
        [("o/a.png", ⟨2, 5, 0⟩), ("o/b_stitched.png", ⟨2, 3, 0⟩)]
        ["o/a.png", "o/b_stitched.png"] "o" "b" =
      .ok [("o/a.png", ⟨2, 5, 0⟩), ("o/b_stitched.png", ⟨2, 8, 0⟩)] "o/b_stitched.png"
        ⟨"RGB", "white", 2, 8, [(⟨2, 5, 0⟩, 0, 0), (⟨2, 3, 0⟩, 0, 5)]⟩ ∧
    Fs.lookup [("o/a.png", ⟨2, 5, 0⟩), ("o/b_stitched.png", ⟨2, 8, 0⟩)] "o/b_stitched.png" ≠
      Fs.lookup [("o/a.png", ⟨2, 5, 0⟩), ("o/b_stitched.png", ⟨2, 3, 0⟩)] "o/b_stitched.png" := by
  decide

/-- Claim C10 as amended: a successful `stitch_images_vertically` writes
only the output path `{base}_stitched.png`; every other file — in
particular every input whose path is not the output path — is byte-for-byte
unchanged. -/
theorem stitch_frame (saveOk : String → Bool) (fs : Fs) (image_paths : List String)
    (folder base : String) (fs' : Fs) (out : String) (tr : StitchTrace)
    (h : stitch_images_vertically saveOk fs image_paths folder base = .ok fs' out tr) :
    (∀ q, q ≠ out → fs'.lookup q = fs.lookup q) ∧
    (∀ p ∈ image_paths, p ≠ out → fs'.lookup p = fs.lookup p) := by
  obtain ⟨-, -, imgs, -, -, -, -, hfs'⟩ :=
    stitch_ok_dest saveOk fs image_paths folder base fs' out tr h
  subst hfs'
  constructor
  · intro q hq
    rw [Fs.lookup_set, if_neg (fun hh => hq hh.symm)]
  · intro p hp hpo
    rw [Fs.lookup_set, if_neg (fun hh => hpo hh.symm)]

/-- Witness for the amended C10: stitching one readable input writes only
`o/b_stitched.png` and leaves the input `o/a.png` unchanged. -/
theorem stitch_frame_witness :
    (∀ q, q ≠ "o/b_stitched.png" →
      Fs.lookup [("o/a.png", ⟨2, 3, 0⟩), ("o/b_stitched.png", ⟨2, 3, 0⟩)] q =
        Fs.lookup [("o/a.png", ⟨2, 3, 0⟩)] q) ∧
    (∀ p ∈ ["o/a.png"], p ≠ "o/b_stitched.png" →
      Fs.lookup [("o/a.png", ⟨2, 3, 0⟩), ("o/b_stitched.png", ⟨2, 3, 0⟩)] p =
        Fs.lookup [("o/a.png", ⟨2, 3, 0⟩)] p) :=
  stitch_frame (fun _ => true) [("o/a.png", ⟨2, 3, 0⟩)] ["o/a.png"] "o" "b"
    [("o/a.png", ⟨2, 3, 0⟩), ("o/b_stitched.png", ⟨2, 3, 0⟩)] "o/b_stitched.png"
    ⟨"RGB", "white", 2, 3, [(⟨2, 3, 0⟩, 0, 0)]⟩ (by decide)

end PdfConverter
